import Mathlib

/-!
Verification of the llm-structed client library (Go, package `llmstructed`)
against its specification. The Go sources `client.go` and `llm.go` are
shallowly embedded: pure functions become Lean functions, the retry loop
becomes an explicit fuel-indexed loop over a stream of attempt outcomes,
and the schema cache becomes explicit state passing over an association
list. Go `reflect` types are embedded as an inductive `GoType`, struct tags
as a record of strings (with the Go convention that an absent tag reads as
the empty string).
-/

namespace LlmStructed

/-- The six wire schema kinds, from the `schemaType` constants in `llm.go`. -/
inductive SchemaTy where
  | str
  | number
  | integer
  | boolean
  | array
  | object
deriving DecidableEq, Repr

/-- Wire name of a schema kind (the value of the Go `schemaType` string). -/
def SchemaTy.name : SchemaTy → String
  | .str => "string"
  | .number => "number"
  | .integer => "integer"
  | .boolean => "boolean"
  | .array => "array"
  | .object => "object"

/-- The Schema Model: Go struct `schema` in `llm.go` (`Type`, `Description`,
`Enum`, `ArrayItems`, `ObjectProperties`). The Go map `ObjectProperties` is
embedded as an association list with map-style insertion (overwrite on an
existing key). -/
inductive Schema where
  | mk (ty : SchemaTy) (description : String) (enum : List String)
       (arrayItems : Option Schema)
       (objectProperties : List (String × Schema)) : Schema
deriving Repr

def Schema.ty : Schema → SchemaTy
  | .mk t _ _ _ _ => t

def Schema.description : Schema → String
  | .mk _ d _ _ _ => d

def Schema.enum : Schema → List String
  | .mk _ _ e _ _ => e

def Schema.arrayItems : Schema → Option Schema
  | .mk _ _ _ i _ => i

def Schema.objectProperties : Schema → List (String × Schema)
  | .mk _ _ _ _ p => p

/-- `s.Description = d` (field assignment on the Go struct). -/
def Schema.withDescription : Schema → String → Schema
  | .mk t _ e i p, d => .mk t d e i p

/-- `s.Enum = xs` (field assignment on the Go struct). -/
def Schema.withEnum : Schema → List String → Schema
  | .mk t d _ i p, e => .mk t d e i p

/-- A Go struct field's reflected metadata: declared name, `PkgPath`
(non-empty exactly for unexported fields), and the `json`, `desc` and
`enum` struct tags (`Tag.Get` returns `""` for an absent tag). -/
structure GoTag where
  name : String
  pkgPath : String
  json : String
  desc : String
  enum : String
deriving DecidableEq, Repr

/-- Embedding of the Go reflected types the reflector walks
(`reflect.Type` as consumed by `typeToSchema` in `client.go`). `tOther`
stands for any kind outside the supported set (map, chan, func, ...),
carrying its `Kind()` string. -/
inductive GoType where
  | tString
  | tFloat32
  | tFloat64
  | tInt
  | tInt8
  | tInt16
  | tInt32
  | tInt64
  | tUint
  | tUint8
  | tUint16
  | tUint32
  | tUint64
  | tBool
  | tPtr (elem : GoType)
  | tSlice (elem : GoType)
  | tArray (elem : GoType)
  | tStruct (fields : List (GoTag × GoType))
  | tOther (kind : String)
deriving Repr

/-- The Go `Kind()` string of an embedded type (used in error messages and
in the target-validation check of `Do`). -/
def GoType.kindName : GoType → String
  | .tString => "string"
  | .tFloat32 => "float32"
  | .tFloat64 => "float64"
  | .tInt => "int"
  | .tInt8 => "int8"
  | .tInt16 => "int16"
  | .tInt32 => "int32"
  | .tInt64 => "int64"
  | .tUint => "uint"
  | .tUint8 => "uint8"
  | .tUint16 => "uint16"
  | .tUint32 => "uint32"
  | .tUint64 => "uint64"
  | .tBool => "bool"
  | .tPtr _ => "ptr"
  | .tSlice _ => "slice"
  | .tArray _ => "array"
  | .tStruct _ => "struct"
  | .tOther k => k

/-- Association-list update with Go map semantics: `m[k] = v` overwrites an
existing entry for `k` in place, otherwise appends. -/
def assocSet {β : Type} : List (String × β) → String → β → List (String × β)
  | [], k, v => [(k, v)]
  | (k1, v1) :: rest, k, v =>
    if k1 = k then (k, v) :: rest else (k1, v1) :: assocSet rest k v

/-- Association-list lookup (Go map read). -/
def assocGet {κ β : Type} [DecidableEq κ] : List (κ × β) → κ → Option β
  | [], _ => none
  | (k1, v1) :: rest, k => if k1 = k then some v1 else assocGet rest k

/-- `strings.Index(s, ",")`-based truncation from `typeToSchema`: the part
of `s` before the first comma, or all of `s` when it has no comma. -/
def beforeComma (s : String) : String :=
  (s.splitOn ",").headD s

/-- The visible property name `typeToSchema` computes for a field: the
declared name, overridden by the `json` tag (truncated at the first comma)
when that tag is non-empty. -/
def fieldKey (tag : GoTag) : String :=
  if tag.json ≠ "" then beforeComma tag.json else tag.name

/-- The per-field post-processing in `typeToSchema`'s struct loop:
`s.Description = field.Tag.Get("desc")`, then attach `Enum` (the comma
split of the `enum` tag) when the schema kind is string and the tag is
non-empty. -/
def fieldSchema (tag : GoTag) (s : Schema) : Schema :=
  let s1 := s.withDescription tag.desc
  if s1.ty = SchemaTy.str then
    if tag.enum ≠ "" then s1.withEnum (tag.enum.splitOn ",") else s1
  else s1

mutual

/-- Embedding of `typeToSchema` (client.go:97-160): pointer indirection is
stripped, primitives map to their schema kinds, slices/arrays recurse into
the element, structs recurse over their fields, and any other kind is the
`unsupported type` error. -/
def typeToSchema : GoType → Except String Schema
  | .tPtr t => typeToSchema t
  | .tString => .ok (.mk .str "" [] none [])
  | .tFloat32 => .ok (.mk .number "" [] none [])
  | .tFloat64 => .ok (.mk .number "" [] none [])
  | .tInt => .ok (.mk .integer "" [] none [])
  | .tInt8 => .ok (.mk .integer "" [] none [])
  | .tInt16 => .ok (.mk .integer "" [] none [])
  | .tInt32 => .ok (.mk .integer "" [] none [])
  | .tInt64 => .ok (.mk .integer "" [] none [])
  | .tUint => .ok (.mk .integer "" [] none [])
  | .tUint8 => .ok (.mk .integer "" [] none [])
  | .tUint16 => .ok (.mk .integer "" [] none [])
  | .tUint32 => .ok (.mk .integer "" [] none [])
  | .tUint64 => .ok (.mk .integer "" [] none [])
  | .tBool => .ok (.mk .boolean "" [] none [])
  | .tSlice t =>
    match typeToSchema t with
    | .error e => .error e
    | .ok s => .ok (.mk .array "" [] (some s) [])
  | .tArray t =>
    match typeToSchema t with
    | .error e => .error e
    | .ok s => .ok (.mk .array "" [] (some s) [])
  | .tStruct fields =>
    match structProperties fields [] with
    | .error e => .error e
    | .ok props => .ok (.mk .object "" [] none props)
  | .tOther k => .error ("unsupported type: " ++ k)

/-- The field loop of `typeToSchema`'s struct case, with the accumulated
`properties` map: unexported fields (`PkgPath != ""`) and fields tagged
`json:"-"` are skipped; every other field is inserted under `fieldKey`
after `fieldSchema` post-processing. -/
def structProperties : List (GoTag × GoType) → List (String × Schema) →
    Except String (List (String × Schema))
  | [], acc => .ok acc
  | (tag, ty) :: rest, acc =>
    if tag.pkgPath ≠ "" then structProperties rest acc
    else if tag.json = "-" then structProperties rest acc
    else
      match typeToSchema ty with
      | .error e => .error e
      | .ok s => structProperties rest (assocSet acc (fieldKey tag) (fieldSchema tag s))

end

/-! ## Wire JSON serialization (`convertToOpenAISchema`, llm.go:158-188) -/

/-- JSON values as emitted by `convertToOpenAISchema` and the request
builder (strings, booleans, arrays, objects suffice). Objects keep the
emission order of their keys. -/
inductive JValue where
  | str (s : String)
  | bool (b : Bool)
  | arr (xs : List JValue)
  | obj (fields : List (String × JValue))
deriving Repr

/-- Whether a JSON object carries the given key. -/
def JValue.hasKey : JValue → String → Bool
  | .obj fs, k => fs.any (fun p => p.1 = k)
  | _, _ => false

/-- The value a JSON object carries at the given key. -/
def JValue.getKey : JValue → String → Option JValue
  | .obj fs, k => assocGet fs k
  | _, _ => none

mutual

/-- Embedding of `convertToOpenAISchema` (llm.go:158-188): always `type`;
`description` when non-empty; `enum` when non-empty; `items` when
`ArrayItems` is set; `properties`, `required` (all property names) and
`additionalProperties = false` when `ObjectProperties` is non-empty. -/
def convertToOpenAISchema : Schema → JValue
  | .mk t d e items props =>
    .obj ([("type", .str t.name)]
      ++ (if d ≠ "" then [("description", JValue.str d)] else [])
      ++ (if e.length > 0 then [("enum", JValue.arr (e.map .str))] else [])
      ++ (match items with
          | some it => [("items", convertToOpenAISchema it)]
          | none => [])
      ++ (if props.length > 0 then
            [("properties", JValue.obj (convertProperties props)),
             ("required", JValue.arr (props.map (fun p => JValue.str p.1))),
             ("additionalProperties", JValue.bool false)]
          else []))

/-- The recursive conversion of each entry of `ObjectProperties`. -/
def convertProperties : List (String × Schema) → List (String × JValue)
  | [] => []
  | (k, s) :: rest => (k, convertToOpenAISchema s) :: convertProperties rest

end

/-! ## Request construction (`Completions`, llm.go:53-96) -/

/-- A chat turn (`map[string]string\x7brole, content\x7d` in the Go request). -/
structure ChatMessage where
  role : String
  content : String
deriving DecidableEq, Repr

/-- The fixed system turn prepended by `Completions`. -/
def systemTurn : ChatMessage :=
  { role := "system"
    content := "You are a helpful assistant that provides structured output. Your response must be a valid JSON object." }

/-- Insertion into a key-sorted list, used to model Go `fmt`'s sorted map
rendering (values already rendered to strings). -/
def insertByKey (p : String × String) : List (String × String) → List (String × String)
  | [] => [p]
  | q :: rest => if p.1 ≤ q.1 then p :: q :: rest else q :: insertByKey p rest

/-- Sort an object's rendered fields by key (Go `fmt` prints map keys
sorted). -/
def sortByKey : List (String × String) → List (String × String)
  | [] => []
  | p :: rest => insertByKey p (sortByKey rest)

mutual

/-- Rendering of a JSON value the way Go's `fmt` verb `%v` renders the
corresponding `map[string]interface\x7b\x7d` / slice / scalar values:
`map[k1:v1 k2:v2]` with sorted keys for maps, space-separated brackets for
slices, bare scalars otherwise. -/
def goFmtV : JValue → String
  | .str s => s
  | .bool b => if b then "true" else "false"
  | .arr xs => "[" ++ String.intercalate " " (goFmtVList xs) ++ "]"
  | .obj fs =>
    "map[" ++ String.intercalate " "
      ((sortByKey (goFmtVPairs fs)).map (fun p => p.1 ++ ":" ++ p.2)) ++ "]"

/-- Rendering of each element of a JSON array. -/
def goFmtVList : List JValue → List String
  | [] => []
  | x :: rest => goFmtV x :: goFmtVList rest

/-- Rendering of each value of a JSON object, keeping the keys. -/
def goFmtVPairs : List (String × JValue) → List (String × String)
  | [] => []
  | (k, v) :: rest => (k, goFmtV v) :: goFmtVPairs rest

end

/-- The extra user turn appended by Strategy B (`StructuredOutputSupported`
unset): the `fmt.Sprintf` instruction embedding the `%v` rendering of the
serialized schema. -/
def schemaInstructionTurn (responseSchema : Schema) : ChatMessage :=
  { role := "user"
    content := "You must format your response as a JSON object following this schema: \n"
      ++ goFmtV (convertToOpenAISchema responseSchema)
      ++ "\nDo not include any other text in your response." }

/-- The `response_format` object built by `Completions`: strict
`json_schema` mode carrying the serialized schema when structured output
is supported, plain `json_object` mode otherwise. -/
def responseFormat (structuredOutputSupported : Bool) (responseSchema : Schema) : JValue :=
  if structuredOutputSupported then
    .obj [("type", .str "json_schema"),
          ("json_schema", .obj [("name", .str "response"),
                                ("strict", .bool true),
                                ("schema", convertToOpenAISchema responseSchema)])]
  else
    .obj [("type", .str "json_object")]

/-- The `messages` array built by `Completions`: the fixed system turn,
one user turn per input message in order, and under Strategy B one
appended schema-instruction user turn. -/
def completionsMessages (structuredOutputSupported : Bool) (messages : List String)
    (responseSchema : Schema) : List ChatMessage :=
  let chatMessages := systemTurn :: messages.map (fun m => { role := "user", content := m })
  if structuredOutputSupported then chatMessages
  else chatMessages ++ [schemaInstructionTurn responseSchema]

/-! ## Retry loop (`Do`, client.go:185-206) -/

/-- One attempt of `Do`'s loop body: call `Completions`, then
`json.Unmarshal` the returned bytes into the target; a decode failure is
wrapped together with the offending raw text. `completions` gives attempt
`i`'s transport outcome, `unmarshal` the decode outcome of a response. -/
def doAttempt {E R : Type} (completions : Nat → Except E R) (unmarshal : R → Except E Unit)
    (wrap : E → R → E) (i : Nat) : Except E Unit :=
  match completions i with
  | .error e => .error e
  | .ok resp =>
    match unmarshal resp with
    | .error e => .error (wrap e resp)
    | .ok _ => .ok ()

/-- The `for i := 0; i < retries+1; i++` loop of `Do`, with fuel `n`
attempts left, next attempt index `i` and the current `lastErr`. Returns
`Do`'s outcome (`none` for a nil error) paired with the number of
attempts (Completion Protocol invocations) made. Attempts run one after
another at consecutive indices — strictly sequentially. -/
def doLoop {E : Type} (attempt : Nat → Except E Unit) :
    Nat → Nat → Option E → Option E × Nat
  | _, 0, lastErr => (lastErr, 0)
  | i, n + 1, _ =>
    match attempt i with
    | .ok _ => (none, 1)
    | .error e =>
      let r := doLoop attempt (i + 1) n (some e)
      (r.1, r.2 + 1)

/-- The retry-count normalization in `Do` (client.go:186-189):
`retries := c.retry; if retries <= 0 \x7b retries = 1 \x7d`. -/
def normalizedRetries (retry : Int) : Nat :=
  if retry ≤ 0 then 1 else retry.toNat

/-- The number of loop iterations `Do` allows: `retries + 1`. -/
def attemptBound (retry : Int) : Nat :=
  normalizedRetries retry + 1

/-- `Do`'s retry phase (client.go:185-206) over an abstract transport and
decoder: outcome (`none` = success) and number of attempts made. -/
def doRetryPhase {E R : Type} (retry : Int) (completions : Nat → Except E R)
    (unmarshal : R → Except E Unit) (wrap : E → R → E) : Option E × Nat :=
  doLoop (doAttempt completions unmarshal wrap) 0 (attemptBound retry) none

/-! ## Target validation (`Do`, client.go:162-171) -/

/-- The shapes of the `ret` argument that matter to `Do`'s validation:
a value of non-pointer kind, a typed nil pointer, or a non-nil pointer
with its pointee type. -/
inductive GoValue where
  | nonPtr (kind : String)
  | ptrNil (pointee : GoType)
  | ptrTo (pointee : GoType)

/-- Outcome of `Do`'s target validation: a Go runtime panic, an error
return, or the pointee type to proceed with. -/
inductive ValidateResult where
  | panics (msg : String)
  | err (msg : String)
  | ok (t : GoType)

/-- Embedding of client.go:162-171. Per Go `reflect` semantics:
`reflect.Value.Elem` on a nil pointer returns the zero `Value`, and
calling `Type()` on the zero `Value` panics — so a typed nil pointer
passes the pointer-kind check and then panics at `v.Elem().Type()`. -/
def validateTarget : GoValue → ValidateResult
  | .nonPtr _ => .err "ret must be a pointer"
  | .ptrNil _ => .panics "reflect: call of reflect.Value.Type on zero Value"
  | .ptrTo t =>
    match t with
    | .tStruct fields => .ok (.tStruct fields)
    | t1 => .err ("ret must be a pointer to struct, got " ++ t1.kindName)

/-! ## Schema cache (`Do`, client.go:173-183) -/

/-- The schema-cache step of `Do`: `schemaCache.Load` on the type identity,
on a miss invoke the reflector and `Store` the result. Returns the schema,
the updated cache and whether the reflector was invoked. Keys are an
abstract type-identity type `κ` (Go keys by `reflect.Type` identity). -/
def cacheResolve {κ : Type} [DecidableEq κ] (reflector : κ → Except String Schema)
    (cache : List (κ × Schema)) (t : κ) : Except String (Schema × List (κ × Schema) × Bool) :=
  match assocGet cache t with
  | some s => .ok (s, cache, false)
  | none =>
    match reflector t with
    | .error e => .error e
    | .ok s => .ok (s, (t, s) :: cache, true)

/-! ## Construction (`New`, client.go:65-95) -/

/-- The `Config` passed to `New` (client.go:30-57). `Temperature` is a Go
float32; the values the spec and tests exercise are exactly representable,
so it is embedded as a rational. -/
structure Config where
  debug : Bool
  baseURL : String
  apiKey : String
  model : String
  temperature : ℚ
  structuredOutputSupported : Bool
  retry : Int
deriving DecidableEq, Repr

/-- The state `New` builds: the `llmConfig` handed to the transport plus
the retry budget kept on the client. -/
structure ClientState where
  debug : Bool
  baseURL : String
  apiKey : String
  model : String
  temperature : ℚ
  structuredOutputSupported : Bool
  retry : Int
deriving DecidableEq, Repr

/-- Embedding of `New` (client.go:65-95): require an API key, require
`0 ≤ Temperature ≤ 2`, default `BaseURL` and `Model` when empty. -/
def New (config : Config) : Except String ClientState :=
  if config.apiKey = "" then .error "api key is required"
  else if config.temperature < 0 ∨ config.temperature > 2 then
    .error "temperature must be between 0 and 2"
  else
    let baseURL := if config.baseURL = "" then "https://api.deepseek.com/v1" else config.baseURL
    let model := if config.model = "" then "deepseek-chat" else config.model
    .ok { debug := config.debug
          baseURL := baseURL
          apiKey := config.apiKey
          model := model
          temperature := config.temperature
          structuredOutputSupported := config.structuredOutputSupported
          retry := config.retry }

/-! ## Spec-side definitions

The following definitions are written from the specification's words (not
from the source); the theorems compare the source embedding against them.
-/

/-- The kind tree of a schema: the spec's notion of the "`kind` tree" that
must mirror the type tree (primitive kinds at leaves, an array node over
its items, an object node over its properties). -/
inductive KindTree where
  | leaf (k : SchemaTy)
  | arr (item : KindTree)
  | node (children : List (String × KindTree))
deriving Repr

mutual

/-- The kind tree carried by a Schema Model: primitives are leaves, an
array schema is `arr` of its items' tree (an absent items slot degrades to
a bare leaf), an object schema is `node` of its properties' trees. -/
def Schema.kindTree : Schema → KindTree
  | .mk t _ _ items props =>
    match t with
    | .array =>
      match items with
      | some it => .arr it.kindTree
      | none => .leaf .array
    | .object => .node (kindTreeProps props)
    | k => .leaf k

/-- Kind trees of an object schema's properties. -/
def kindTreeProps : List (String × Schema) → List (String × KindTree)
  | [] => []
  | (k, s) :: rest => (k, s.kindTree) :: kindTreeProps rest

end

/-- Modelled from the spec: a field is skipped iff it is unexported or
carries the explicit exclude marker (wire-name `-`); every other field is
visible. -/
def specVisible (tag : GoTag) : Bool :=
  tag.pkgPath = "" && tag.json ≠ "-"

/-- Modelled from the spec: the externally visible name of a field — the
wire-name annotation truncated before the first annotation-options
separator when present, otherwise the declared field name. -/
def specFieldKey (tag : GoTag) : String :=
  if tag.json = "" then tag.name else beforeComma tag.json

mutual

/-- Modelled from the spec (§4.1): the kind tree a type should map to —
pointers unwrapped, textual to string, floats to number, integers to
integer, booleans to boolean, sequences to an array node over the element,
records to an object node over the visible fields (inserted under the
visible name), and `none` on unsupported kinds. -/
def typeKindTree : GoType → Option KindTree
  | .tPtr t => typeKindTree t
  | .tString => some (.leaf .str)
  | .tFloat32 => some (.leaf .number)
  | .tFloat64 => some (.leaf .number)
  | .tInt => some (.leaf .integer)
  | .tInt8 => some (.leaf .integer)
  | .tInt16 => some (.leaf .integer)
  | .tInt32 => some (.leaf .integer)
  | .tInt64 => some (.leaf .integer)
  | .tUint => some (.leaf .integer)
  | .tUint8 => some (.leaf .integer)
  | .tUint16 => some (.leaf .integer)
  | .tUint32 => some (.leaf .integer)
  | .tUint64 => some (.leaf .integer)
  | .tBool => some (.leaf .boolean)
  | .tSlice t =>
    match typeKindTree t with
    | some k => some (.arr k)
    | none => none
  | .tArray t =>
    match typeKindTree t with
    | some k => some (.arr k)
    | none => none
  | .tStruct fields =>
    match typeKindTreeFields fields [] with
    | some children => some (.node children)
    | none => none
  | .tOther _ => none

/-- Modelled from the spec: the object node's children, walking the
declared fields in order, skipping invisible fields and inserting each
visible field's tree under its visible name. -/
def typeKindTreeFields : List (GoTag × GoType) → List (String × KindTree) →
    Option (List (String × KindTree))
  | [], acc => some acc
  | (tag, ty) :: rest, acc =>
    if specVisible tag then
      match typeKindTree ty with
      | none => none
      | some k => typeKindTreeFields rest (assocSet acc (specFieldKey tag) k)
    else typeKindTreeFields rest acc

end

mutual

/-- The supported fragment of C5: types built only from the primitive
kinds, sequences, records and pointer wrapping. -/
def isSimpleType : GoType → Bool
  | .tPtr t => isSimpleType t
  | .tSlice t => isSimpleType t
  | .tArray t => isSimpleType t
  | .tStruct fields => isSimpleFields fields
  | .tOther _ => false
  | _ => true

/-- All field types of a record lie in the supported fragment. -/
def isSimpleFields : List (GoTag × GoType) → Bool
  | [] => true
  | (_, ty) :: rest => isSimpleType ty && isSimpleFields rest

end

/-! ## Retry-loop lemmas -/

theorem doLoop_step_ok {E : Type} (attempt : Nat → Except E Unit) (i n : Nat) (last : Option E)
    (h : attempt i = .ok ()) : doLoop attempt i (n + 1) last = (none, 1) := by
  simp only [doLoop]
  rw [h]

theorem doLoop_step_error {E : Type} (attempt : Nat → Except E Unit) (i n : Nat) (last : Option E)
    (e : E) (h : attempt i = .error e) :
    doLoop attempt i (n + 1) last =
      ((doLoop attempt (i + 1) n (some e)).1, (doLoop attempt (i + 1) n (some e)).2 + 1) := by
  simp only [doLoop]
  rw [h]

theorem doLoop_count_le {E : Type} (attempt : Nat → Except E Unit) :
    ∀ (n i : Nat) (last : Option E), (doLoop attempt i n last).2 ≤ n := by
  intro n
  induction n with
  | zero => intro i last; simp [doLoop]
  | succ m ih =>
    intro i last
    cases h : attempt i with
    | ok u =>
      cases u
      rw [doLoop_step_ok attempt i m last h]
      omega
    | error e =>
      rw [doLoop_step_error attempt i m last e h]
      exact Nat.succ_le_succ (ih (i + 1) (some e))

theorem doLoop_success {E : Type} (attempt : Nat → Except E Unit) :
    ∀ (n k i : Nat) (last : Option E), k < n →
      (∀ j, j < k → ∃ e, attempt (i + j) = .error e) →
      attempt (i + k) = .ok () →
      doLoop attempt i n last = (none, k + 1) := by
  intro n
  induction n with
  | zero => intro k i last hk; exact absurd hk (Nat.not_lt_zero k)
  | succ m ih =>
    intro k i last hk hfail hok
    cases k with
    | zero =>
      rw [Nat.add_zero] at hok
      rw [doLoop_step_ok attempt i m last hok]
    | succ k1 =>
      obtain ⟨e, he⟩ := hfail 0 (Nat.succ_pos k1)
      rw [Nat.add_zero] at he
      rw [doLoop_step_error attempt i m last e he]
      have hrec : doLoop attempt (i + 1) m (some e) = (none, k1 + 1) := by
        apply ih
        · omega
        · intro j hj
          have := hfail (j + 1) (by omega)
          rwa [show i + (j + 1) = i + 1 + j by omega] at this
        · rwa [show i + (k1 + 1) = i + 1 + k1 by omega] at hok
      rw [hrec]

theorem doLoop_allFail {E : Type} (attempt : Nat → Except E Unit) :
    ∀ (n i : Nat) (last : Option E),
      (∀ j, j < n + 1 → ∃ e, attempt (i + j) = .error e) →
      ∃ e, attempt (i + n) = .error e ∧ doLoop attempt i (n + 1) last = (some e, n + 1) := by
  intro n
  induction n with
  | zero =>
    intro i last hfail
    obtain ⟨e, he⟩ := hfail 0 (by omega)
    rw [Nat.add_zero] at he
    refine ⟨e, by rwa [Nat.add_zero], ?_⟩
    rw [doLoop_step_error attempt i 0 last e he]
    simp [doLoop]
  | succ m ih =>
    intro i last hfail
    obtain ⟨e0, he0⟩ := hfail 0 (by omega)
    rw [Nat.add_zero] at he0
    obtain ⟨e, he, hloop⟩ := ih (i + 1) (some e0) (fun j hj => by
      have := hfail (j + 1) (by omega)
      rwa [show i + (j + 1) = i + 1 + j by omega] at this)
    refine ⟨e, by rwa [show i + (m + 1) = i + 1 + m by omega], ?_⟩
    rw [doLoop_step_error attempt i (m + 1) last e0 he0, hloop]

/-! ## Claim theorems -/

/-- C1 (counterexample): with the configured retry count 0 and a transport
that always fails, a single `Do` call makes 2 Completion Protocol attempts,
strictly more than the claimed bound `max(0, 0) + 1 = 1` — because `Do`
normalizes any non-positive retry count to 1 before adding the extra
attempt. -/
theorem do_retry_zero_two_attempts :
    (doRetryPhase 0 (fun _ => (Except.error "transport failure" : Except String String))
      (fun _ => Except.ok ()) (fun e _ => e)).2 = 2 ∧
    max (Int.toNat 0) 0 + 1 <
      (doRetryPhase 0 (fun _ => (Except.error "transport failure" : Except String String))
        (fun _ => Except.ok ()) (fun e _ => e)).2 :=
  ⟨rfl, by decide⟩

/-- C1 (amended): for every configured retry count `r`, a single `Do` call
invokes the Completion Protocol at most `max(r, 1) + 1` times, strictly
sequentially; for every non-positive `r` the attempt budget is 2: exactly
two attempts are made when the first fails, and one when it succeeds. -/
theorem do_attempt_count_bound {E R : Type} (retry : Int)
    (completions : Nat → Except E R) (unmarshal : R → Except E Unit) (wrap : E → R → E) :
    (doRetryPhase retry completions unmarshal wrap).2 ≤ max retry.toNat 1 + 1 ∧
    (retry ≤ 0 → attemptBound retry = 2) ∧
    (retry ≤ 0 → ∀ e, doAttempt completions unmarshal wrap 0 = .error e →
      (doRetryPhase retry completions unmarshal wrap).2 = 2) ∧
    (retry ≤ 0 → doAttempt completions unmarshal wrap 0 = .ok () →
      doRetryPhase retry completions unmarshal wrap = (none, 1)) := by
  have hbound : attemptBound retry ≤ max retry.toNat 1 + 1 := by
    simp only [attemptBound, normalizedRetries]
    split
    · omega
    · omega
  refine ⟨?_, ?_, ?_, ?_⟩
  · exact le_trans (doLoop_count_le _ (attemptBound retry) 0 none) hbound
  · intro hr
    simp [attemptBound, normalizedRetries, hr]
  · intro hr e h0
    have hb : attemptBound retry = 2 := by simp [attemptBound, normalizedRetries, hr]
    simp only [doRetryPhase, hb]
    rw [doLoop_step_error (doAttempt completions unmarshal wrap) 0 1 none e h0]
    cases h1 : doAttempt completions unmarshal wrap 1 with
    | ok u =>
      cases u
      rw [doLoop_step_ok (doAttempt completions unmarshal wrap) 1 0 (some e) h1]
    | error e1 =>
      rw [doLoop_step_error (doAttempt completions unmarshal wrap) 1 0 (some e) e1 h1]
      simp [doLoop]
  · intro hr h0
    have hb : attemptBound retry = 2 := by simp [attemptBound, normalizedRetries, hr]
    simp only [doRetryPhase, hb]
    rw [doLoop_step_ok (doAttempt completions unmarshal wrap) 0 1 none h0]

/-- C1 witness: at retry count 0, the bound clauses of
`do_attempt_count_bound` evaluate as stated on concrete transports. -/
theorem do_attempt_count_bound_witness :
    (doRetryPhase 0 (fun _ => (Except.error "e" : Except String String))
      (fun _ => Except.ok ()) (fun e _ => e)).2 = 2 ∧
    doRetryPhase 0 (fun _ => (Except.ok "resp" : Except String String))
      (fun _ => Except.ok ()) (fun e _ => e) = (none, 1) :=
  ⟨(do_attempt_count_bound 0 (fun _ => (Except.error "e" : Except String String))
      (fun _ => Except.ok ()) (fun e _ => e)).2.2.1 (by decide) "e" rfl,
   (do_attempt_count_bound 0 (fun _ => (Except.ok "resp" : Except String String))
      (fun _ => Except.ok ()) (fun e _ => e)).2.2.2 (by decide) rfl⟩

/-- C3: `Do` returns success (nil error) immediately on the first attempt
whose Completion Protocol call succeeds and whose returned text decodes
into the target, making no further attempts (the attempt count is `k + 1`);
and if every permitted attempt fails, `Do` returns exactly the error of the
last attempt (index `normalizedRetries retry`, the final loop iteration),
discarding all earlier attempts' errors. -/
theorem do_first_success_and_last_error {E R : Type} (retry : Int)
    (completions : Nat → Except E R) (unmarshal : R → Except E Unit) (wrap : E → R → E) :
    (∀ k, k < attemptBound retry →
      (∀ j, j < k → ∃ e, doAttempt completions unmarshal wrap j = .error e) →
      ∀ r, completions k = .ok r → unmarshal r = .ok () →
      doRetryPhase retry completions unmarshal wrap = (none, k + 1)) ∧
    ((∀ j, j < attemptBound retry → ∃ e, doAttempt completions unmarshal wrap j = .error e) →
      ∃ e, doAttempt completions unmarshal wrap (normalizedRetries retry) = .error e ∧
        doRetryPhase retry completions unmarshal wrap = (some e, attemptBound retry)) := by
  constructor
  · intro k hk hfail r hr hu
    have hok : doAttempt completions unmarshal wrap k = .ok () := by
      simp [doAttempt, hr, hu]
    have := doLoop_success (doAttempt completions unmarshal wrap) (attemptBound retry) k 0 none hk
      (fun j hj => by simpa using hfail j hj) (by simpa using hok)
    simpa [doRetryPhase] using this
  · intro hfail
    obtain ⟨e, he, hloop⟩ := doLoop_allFail (doAttempt completions unmarshal wrap)
      (normalizedRetries retry) 0 none
      (fun j hj => by
        have hj2 : j < attemptBound retry := hj
        simpa using hfail j hj2)
    exact ⟨e, by simpa using he, by simpa [doRetryPhase, attemptBound] using hloop⟩

/-- C3 witness: with retry budget 1, a transport failing once then
succeeding returns success after exactly 2 attempts; a transport that
always fails exhausts the budget of 2 attempts and surfaces the final
attempt's error. -/
theorem do_first_success_and_last_error_witness :
    doRetryPhase 1 (fun i => if i = 0 then .error "boom" else (Except.ok "resp" : Except String String))
      (fun _ => Except.ok ()) (fun e _ => e) = (none, 2) ∧
    (∃ e, doAttempt (fun _ => (Except.error "boom" : Except String String))
        (fun _ => Except.ok ()) (fun e _ => e) (normalizedRetries 0) = .error e ∧
      doRetryPhase 0 (fun _ => (Except.error "boom" : Except String String))
        (fun _ => Except.ok ()) (fun e _ => e) = (some e, attemptBound 0)) :=
  ⟨(do_first_success_and_last_error 1
      (fun i => if i = 0 then .error "boom" else (Except.ok "resp" : Except String String))
      (fun _ => Except.ok ()) (fun e _ => e)).1 1 (by decide)
      (by
        intro j hj
        have hj0 : j = 0 := Nat.lt_one_iff.mp hj
        subst hj0
        exact ⟨"boom", rfl⟩)
      "resp" rfl rfl,
   (do_first_success_and_last_error 0
      (fun _ => (Except.error "boom" : Except String String))
      (fun _ => Except.ok ()) (fun e _ => e)).2
      (fun j _ => ⟨"boom", rfl⟩)⟩

/-- C9: client construction fails when the API key is absent or when the
temperature lies outside the inclusive range 0.0-2.0 (in particular at
temperature 2.5); with a non-empty API key and temperature 0.5 it succeeds;
and with `BaseURL`/`Model` unset the constructed client carries the default
endpoint `https://api.deepseek.com/v1` and default model `deepseek-chat`. -/
theorem new_config_validation :
    (∀ c : Config, c.apiKey = "" → New c = .error "api key is required") ∧
    (∀ c : Config, c.apiKey ≠ "" → (c.temperature < 0 ∨ c.temperature > 2) →
      New c = .error "temperature must be between 0 and 2") ∧
    (∀ c : Config, c.apiKey ≠ "" → 0 ≤ c.temperature → c.temperature ≤ 2 →
      c.baseURL = "" → c.model = "" →
      New c = .ok { debug := c.debug, baseURL := "https://api.deepseek.com/v1",
                    apiKey := c.apiKey, model := "deepseek-chat",
                    temperature := c.temperature,
                    structuredOutputSupported := c.structuredOutputSupported,
                    retry := c.retry }) ∧
    New { debug := false, baseURL := "", apiKey := "key", model := "",
          temperature := 5/2, structuredOutputSupported := false, retry := 0 } =
      .error "temperature must be between 0 and 2" ∧
    New { debug := false, baseURL := "", apiKey := "key", model := "",
          temperature := 1/2, structuredOutputSupported := false, retry := 0 } =
      .ok { debug := false, baseURL := "https://api.deepseek.com/v1", apiKey := "key",
            model := "deepseek-chat", temperature := 1/2,
            structuredOutputSupported := false, retry := 0 } := by
  refine ⟨?_, ?_, ?_, ?_, ?_⟩
  · intro c h
    simp [New, h]
  · intro c h ht
    rw [New, if_neg h, if_pos ht]
  · intro c h h0 h2 hb hm
    have hnot : ¬ (c.temperature < 0 ∨ c.temperature > 2) := by
      push_neg
      exact ⟨h0, h2⟩
    rw [New, if_neg h, if_neg hnot]
    simp [hb, hm]
  · have ht : ((5 : ℚ)/2 < 0 ∨ (5 : ℚ)/2 > 2) := Or.inr (by norm_num)
    rw [New, if_neg (by decide), if_pos ht]
  · have hnot : ¬ ((1 : ℚ)/2 < 0 ∨ (1 : ℚ)/2 > 2) := by
      push_neg
      constructor <;> norm_num
    rw [New, if_neg (by decide), if_neg hnot]
    rfl

/-- C9 witness: the general clauses of `new_config_validation` applied at
concrete configurations (missing key; temperature 3 out of range;
temperature 1 in range with defaults filled in). -/
theorem new_config_validation_witness :
    New { debug := false, baseURL := "", apiKey := "", model := "",
          temperature := 1, structuredOutputSupported := false, retry := 0 } =
      .error "api key is required" ∧
    New { debug := false, baseURL := "", apiKey := "key", model := "",
          temperature := 3, structuredOutputSupported := false, retry := 0 } =
      .error "temperature must be between 0 and 2" ∧
    New { debug := false, baseURL := "", apiKey := "key", model := "",
          temperature := 1, structuredOutputSupported := false, retry := 0 } =
      .ok { debug := false, baseURL := "https://api.deepseek.com/v1", apiKey := "key",
            model := "deepseek-chat", temperature := 1,
            structuredOutputSupported := false, retry := 0 } :=
  ⟨new_config_validation.1 _ rfl,
   new_config_validation.2.1 _ (by decide) (Or.inr (by decide)),
   new_config_validation.2.2.1 _ (by decide) (by decide) (by decide) rfl rfl⟩

/-- C10: a typed nil pointer to a record type — a valid-looking input at
the public interface — makes `Do`'s target validation panic rather than
return an error or proceed: the pointer-kind check passes, and
`v.Elem().Type()` on the nil pointer's zero reflected value panics. Only a
non-pointer target or a pointer to a non-struct pointee reaches the error
returns. -/
theorem do_nil_pointer_target_panics :
    validateTarget (GoValue.ptrNil (GoType.tStruct [])) =
      ValidateResult.panics "reflect: call of reflect.Value.Type on zero Value" ∧
    (∀ t : GoType, validateTarget (GoValue.ptrNil t) =
      ValidateResult.panics "reflect: call of reflect.Value.Type on zero Value") ∧
    validateTarget (GoValue.nonPtr "int") = ValidateResult.err "ret must be a pointer" ∧
    validateTarget (GoValue.ptrTo GoType.tInt) =
      ValidateResult.err "ret must be a pointer to struct, got int" ∧
    validateTarget (GoValue.ptrTo (GoType.tStruct [])) =
      ValidateResult.ok (GoType.tStruct []) :=
  ⟨rfl, fun _ => rfl, rfl, rfl, rfl⟩

/-- C2 (counterexample): the object schema derived from a record with zero
visible fields (one unexported field) serializes to a wire object that
contains only `type` — no `properties`, no `required`, no
`additionalProperties` — refuting the claim for zero-property objects. -/
theorem wire_empty_object_counterexample :
    typeToSchema (GoType.tStruct [(⟨"hidden", "llmstructed", "", "", ""⟩, GoType.tString)]) =
      Except.ok (Schema.mk .object "" [] none []) ∧
    convertToOpenAISchema (Schema.mk .object "" [] none []) =
      JValue.obj [("type", JValue.str "object")] ∧
    JValue.hasKey (convertToOpenAISchema (Schema.mk .object "" [] none [])) "properties" = false ∧
    JValue.hasKey (convertToOpenAISchema (Schema.mk .object "" [] none [])) "required" = false ∧
    JValue.hasKey (convertToOpenAISchema (Schema.mk .object "" [] none []))
      "additionalProperties" = false :=
  ⟨rfl, rfl, rfl, rfl, rfl⟩

/-- C2 (amended): every wire serialization contains `type`; it contains
`description` / `enum` exactly when those are non-empty; when `items` is
set it contains the recursively serialized element schema under `items`;
and for every object schema with at least one property it contains
`properties` (recursively serialized), `required` equal to the full list of
property names, and `additionalProperties = false` — while an object schema
with zero properties carries none of those three keys. -/
theorem wire_schema_serialization (s : Schema) :
    JValue.hasKey (convertToOpenAISchema s) "type" = true ∧
    (JValue.hasKey (convertToOpenAISchema s) "description" = true ↔ s.description ≠ "") ∧
    (JValue.hasKey (convertToOpenAISchema s) "enum" = true ↔ s.enum ≠ []) ∧
    (JValue.hasKey (convertToOpenAISchema s) "items" = true ↔ s.arrayItems.isSome = true) ∧
    (∀ it, s.arrayItems = some it →
      JValue.getKey (convertToOpenAISchema s) "items" = some (convertToOpenAISchema it)) ∧
    (s.objectProperties ≠ [] →
      JValue.getKey (convertToOpenAISchema s) "properties" =
        some (JValue.obj (convertProperties s.objectProperties)) ∧
      JValue.getKey (convertToOpenAISchema s) "required" =
        some (JValue.arr (s.objectProperties.map (fun p => JValue.str p.1))) ∧
      JValue.getKey (convertToOpenAISchema s) "additionalProperties" =
        some (JValue.bool false)) ∧
    (s.objectProperties = [] →
      JValue.hasKey (convertToOpenAISchema s) "properties" = false) := by
  obtain ⟨t, d, e, items, props⟩ := s
  by_cases hd : d = "" <;>
    by_cases he : e = [] <;>
      cases items <;>
        by_cases hp : props = [] <;>
          simp_all [convertToOpenAISchema, JValue.hasKey, JValue.getKey, assocGet,
            Schema.description, Schema.enum, Schema.arrayItems, Schema.objectProperties,
            List.length_pos, List.any_append]

/-- C2 witness: `wire_schema_serialization` applied to a concrete schema
with a description, an enum, items and one property, so every conditional
clause is discharged. -/
theorem wire_schema_serialization_witness :
    JValue.getKey (convertToOpenAISchema (Schema.mk .array "d" ["a", "b"]
        (some (Schema.mk .str "" [] none []))
        [("k", Schema.mk .str "" [] none [])])) "items" =
      some (convertToOpenAISchema (Schema.mk .str "" [] none [])) ∧
    JValue.getKey (convertToOpenAISchema (Schema.mk .array "d" ["a", "b"]
        (some (Schema.mk .str "" [] none []))
        [("k", Schema.mk .str "" [] none [])])) "required" =
      some (JValue.arr [JValue.str "k"]) ∧
    JValue.hasKey (convertToOpenAISchema (Schema.mk .object "" [] none [])) "properties" = false :=
  ⟨(wire_schema_serialization (Schema.mk .array "d" ["a", "b"]
      (some (Schema.mk .str "" [] none [])) [("k", Schema.mk .str "" [] none [])])).2.2.2.2.1
      (Schema.mk .str "" [] none []) rfl,
   ((wire_schema_serialization (Schema.mk .array "d" ["a", "b"]
      (some (Schema.mk .str "" [] none [])) [("k", Schema.mk .str "" [] none [])])).2.2.2.2.2.1
      (List.cons_ne_nil _ _)).2.1,
   (wire_schema_serialization (Schema.mk .object "" [] none [])).2.2.2.2.2.2 rfl⟩

/-- C4: the outbound request's message sequence is exactly one fixed system
turn followed by one user turn per input message in input order; with the
structured-output flag set, `response_format` is the strict `json_schema`
mode carrying the serialized schema and no further turn is added; with the
flag unset, `response_format` is `json_object` mode and exactly one extra
user turn embedding the textual rendering of the serialized schema is
appended at the end. -/
theorem completions_request_layout (flag : Bool) (msgs : List String) (s : Schema) :
    (flag = true →
      completionsMessages flag msgs s =
        systemTurn :: msgs.map (fun m => { role := "user", content := m }) ∧
      responseFormat flag s = JValue.obj [("type", JValue.str "json_schema"),
        ("json_schema", JValue.obj [("name", JValue.str "response"),
          ("strict", JValue.bool true), ("schema", convertToOpenAISchema s)])]) ∧
    (flag = false →
      completionsMessages flag msgs s =
        (systemTurn :: msgs.map (fun m => { role := "user", content := m })) ++
          [schemaInstructionTurn s] ∧
      (schemaInstructionTurn s).role = "user" ∧
      responseFormat flag s = JValue.obj [("type", JValue.str "json_object")]) := by
  constructor
  · intro h
    subst h
    exact ⟨rfl, rfl⟩
  · intro h
    subst h
    exact ⟨rfl, rfl, rfl⟩

/-- C4 witness: `completions_request_layout` applied with the flag set and
unset on a concrete message list and schema. -/
theorem completions_request_layout_witness :
    completionsMessages true ["hello"] (Schema.mk .object "" [] none []) =
      [systemTurn, { role := "user", content := "hello" }] ∧
    completionsMessages false ["hello"] (Schema.mk .object "" [] none []) =
      [systemTurn, { role := "user", content := "hello" },
       schemaInstructionTurn (Schema.mk .object "" [] none [])] :=
  ⟨(completions_request_layout true ["hello"] (Schema.mk .object "" [] none [])).1 rfl |>.1,
   (completions_request_layout false ["hello"] (Schema.mk .object "" [] none [])).2 rfl |>.1⟩

/-- C8: on a cache miss for a type identity, `Do`'s schema-resolution step
invokes the reflector and stores the derived Schema Model keyed by that
identity; the immediately subsequent resolution for the same identity
returns the stored model without re-invoking the reflector, and the model
returned on the second call is equal (structurally identical) to the
first. -/
theorem schema_cache_resolution {κ : Type} [DecidableEq κ]
    (reflector : κ → Except String Schema) (cache : List (κ × Schema)) (t : κ) (s : Schema)
    (hmiss : assocGet cache t = none) (hrefl : reflector t = .ok s) :
    cacheResolve reflector cache t = .ok (s, (t, s) :: cache, true) ∧
    cacheResolve reflector ((t, s) :: cache) t = .ok (s, (t, s) :: cache, false) := by
  constructor
  · simp only [cacheResolve, hmiss, hrefl]
  · simp [cacheResolve, assocGet]

/-- C8 witness: the cache step run twice from an empty cache with the
reflector derived from `typeToSchema` on the empty record type. -/
theorem schema_cache_resolution_witness :
    cacheResolve (fun _ : Nat => typeToSchema (GoType.tStruct [])) [] 0 =
      .ok (Schema.mk .object "" [] none [], [(0, Schema.mk .object "" [] none [])], true) ∧
    cacheResolve (fun _ : Nat => typeToSchema (GoType.tStruct []))
        [(0, Schema.mk .object "" [] none [])] 0 =
      .ok (Schema.mk .object "" [] none [], [(0, Schema.mk .object "" [] none [])], false) :=
  schema_cache_resolution (fun _ : Nat => typeToSchema (GoType.tStruct [])) [] 0
    (Schema.mk .object "" [] none []) rfl rfl

/-! ## Reflector field-loop lemmas -/

theorem fieldKey_eq_specFieldKey (tag : GoTag) : fieldKey tag = specFieldKey tag := by
  simp only [fieldKey, specFieldKey]
  by_cases h : tag.json = "" <;> simp [h]

theorem structProperties_skip (tag : GoTag) (ty : GoType) (rest : List (GoTag × GoType))
    (acc : List (String × Schema)) (hvis : specVisible tag = false) :
    structProperties ((tag, ty) :: rest) acc = structProperties rest acc := by
  simp only [structProperties]
  split_ifs with h1 h2
  · rfl
  · rfl
  · exfalso
    rw [not_not] at h1
    simp [specVisible, h1, h2] at hvis

theorem structProperties_visible_ok (tag : GoTag) (ty : GoType) (rest : List (GoTag × GoType))
    (acc : List (String × Schema)) (s : Schema)
    (hp : tag.pkgPath = "") (hj : tag.json ≠ "-") (hs : typeToSchema ty = Except.ok s) :
    structProperties ((tag, ty) :: rest) acc =
      structProperties rest (assocSet acc (fieldKey tag) (fieldSchema tag s)) := by
  simp only [structProperties]
  rw [if_neg (by simp [hp]), if_neg hj, hs]

theorem structProperties_visible_error (tag : GoTag) (ty : GoType) (rest : List (GoTag × GoType))
    (acc : List (String × Schema)) (e : String)
    (hp : tag.pkgPath = "") (hj : tag.json ≠ "-") (hs : typeToSchema ty = Except.error e) :
    structProperties ((tag, ty) :: rest) acc = Except.error e := by
  simp only [structProperties]
  rw [if_neg (by simp [hp]), if_neg hj, hs]

theorem assocGet_assocSet {β : Type} (l : List (String × β)) (k0 k : String) (v : β) :
    assocGet (assocSet l k0 v) k = if k = k0 then some v else assocGet l k := by
  induction l with
  | nil =>
    simp only [assocSet, assocGet]
    by_cases h : k0 = k
    · subst h
      simp
    · rw [if_neg h, if_neg (fun hx => h hx.symm)]
  | cons p rest ih =>
    obtain ⟨k1, v1⟩ := p
    simp only [assocSet]
    by_cases h1 : k1 = k0
    · rw [if_pos h1]
      simp only [assocGet]
      by_cases hk : k0 = k
      · rw [if_pos hk, if_pos hk.symm]
      · rw [if_neg hk, if_neg (fun hx => hk hx.symm), if_neg (fun hx => hk (h1.symm.trans hx))]
    · rw [if_neg h1]
      simp only [assocGet]
      by_cases hk : k1 = k
      · rw [if_pos hk, if_neg (fun hx => h1 (hk.trans hx)), if_pos hk]
      · rw [if_neg hk, ih]
        by_cases hkk : k = k0
        · rw [if_pos hkk, if_pos hkk]
        · rw [if_neg hkk, if_neg hkk, if_neg hk]

theorem assocGet_assocSet_isSome {β : Type} (l : List (String × β)) (k0 k : String) (v : β) :
    (assocGet (assocSet l k0 v) k).isSome = true ↔
      ((assocGet l k).isSome = true ∨ k = k0) := by
  rw [assocGet_assocSet]
  by_cases h : k = k0 <;> simp [h]

theorem typeToSchema_enum_nil (t : GoType) (s : Schema) (h : typeToSchema t = Except.ok s) :
    s.enum = [] := by
  cases t with
  | tPtr t1 => exact typeToSchema_enum_nil t1 s (by simpa [typeToSchema] using h)
  | tString => simp only [typeToSchema, Except.ok.injEq] at h; subst h; rfl
  | tFloat32 => simp only [typeToSchema, Except.ok.injEq] at h; subst h; rfl
  | tFloat64 => simp only [typeToSchema, Except.ok.injEq] at h; subst h; rfl
  | tInt => simp only [typeToSchema, Except.ok.injEq] at h; subst h; rfl
  | tInt8 => simp only [typeToSchema, Except.ok.injEq] at h; subst h; rfl
  | tInt16 => simp only [typeToSchema, Except.ok.injEq] at h; subst h; rfl
  | tInt32 => simp only [typeToSchema, Except.ok.injEq] at h; subst h; rfl
  | tInt64 => simp only [typeToSchema, Except.ok.injEq] at h; subst h; rfl
  | tUint => simp only [typeToSchema, Except.ok.injEq] at h; subst h; rfl
  | tUint8 => simp only [typeToSchema, Except.ok.injEq] at h; subst h; rfl
  | tUint16 => simp only [typeToSchema, Except.ok.injEq] at h; subst h; rfl
  | tUint32 => simp only [typeToSchema, Except.ok.injEq] at h; subst h; rfl
  | tUint64 => simp only [typeToSchema, Except.ok.injEq] at h; subst h; rfl
  | tBool => simp only [typeToSchema, Except.ok.injEq] at h; subst h; rfl
  | tSlice t1 =>
    simp only [typeToSchema] at h
    cases hs : typeToSchema t1 with
    | error e => rw [hs] at h; simp at h
    | ok s1 => rw [hs] at h; simp at h; subst h; rfl
  | tArray t1 =>
    simp only [typeToSchema] at h
    cases hs : typeToSchema t1 with
    | error e => rw [hs] at h; simp at h
    | ok s1 => rw [hs] at h; simp at h; subst h; rfl
  | tStruct fields =>
    simp only [typeToSchema] at h
    cases hs : structProperties fields [] with
    | error e => rw [hs] at h; simp at h
    | ok props => rw [hs] at h; simp at h; subst h; rfl
  | tOther k => simp [typeToSchema] at h

theorem structProperties_keys (fields : List (GoTag × GoType)) :
    ∀ (acc props : List (String × Schema)), structProperties fields acc = Except.ok props →
      ∀ k, (assocGet props k).isSome = true ↔
        ((assocGet acc k).isSome = true ∨
          k ∈ (fields.filter (fun f => specVisible f.1)).map (fun f => specFieldKey f.1)) := by
  induction fields with
  | nil =>
    intro acc props h k
    simp only [structProperties, Except.ok.injEq] at h
    subst h
    simp
  | cons f rest ih =>
    obtain ⟨tag, ty⟩ := f
    intro acc props h k
    by_cases hvis : specVisible tag = true
    · have hp : tag.pkgPath = "" := by
        simp [specVisible] at hvis
        exact hvis.1
      have hj : tag.json ≠ "-" := by
        simp [specVisible] at hvis
        exact hvis.2
      cases hs : typeToSchema ty with
      | error e =>
        rw [structProperties_visible_error tag ty rest acc e hp hj hs] at h
        simp at h
      | ok s =>
        rw [structProperties_visible_ok tag ty rest acc s hp hj hs] at h
        have hkeys := ih (assocSet acc (fieldKey tag) (fieldSchema tag s)) props h k
        rw [hkeys, assocGet_assocSet_isSome, fieldKey_eq_specFieldKey]
        have hfil : List.filter (fun f => specVisible f.1) ((tag, ty) :: rest) =
            (tag, ty) :: List.filter (fun f => specVisible f.1) rest := by
          simp [List.filter_cons, hvis]
        rw [hfil, List.map_cons, List.mem_cons]
        tauto
    · have hvis2 : specVisible tag = false := by
        cases hb : specVisible tag
        · rfl
        · exact absurd hb hvis
      rw [structProperties_skip tag ty rest acc hvis2] at h
      rw [ih acc props h k]
      simp only [List.filter_cons, hvis2]
      rfl

/-- C6: a field that is unexported or whose wire-name annotation is exactly
`-` is skipped entirely by the reflector (it contributes nothing to the
derived properties), and the set of keys of the derived object's properties
is exactly the set of visible fields' keys, each visible field keyed by the
portion of its wire-name annotation before the first comma when present and
by the declared field name otherwise. -/
theorem struct_field_visibility :
    (∀ (tag : GoTag) (ty : GoType) (rest : List (GoTag × GoType)) (acc : List (String × Schema)),
      specVisible tag = false →
      structProperties ((tag, ty) :: rest) acc = structProperties rest acc) ∧
    (∀ (fields : List (GoTag × GoType)) (props : List (String × Schema)),
      structProperties fields [] = Except.ok props →
      ∀ k, (assocGet props k).isSome = true ↔
        k ∈ (fields.filter (fun f => specVisible f.1)).map (fun f => specFieldKey f.1)) := by
  constructor
  · exact structProperties_skip
  · intro fields props h k
    have := structProperties_keys fields [] props h k
    simpa [assocGet] using this

/-- C6 witness: `struct_field_visibility` applied to a record with one
excluded field (wire-name `-`) and to a record with one visible field
(declared name `A`, no wire-name annotation). -/
theorem struct_field_visibility_witness :
    structProperties [(⟨"C", "", "-", "", ""⟩, GoType.tString)] [] = structProperties [] [] ∧
    (assocGet [("A", Schema.mk .str "" [] none [])] "A").isSome = true :=
  ⟨struct_field_visibility.1 ⟨"C", "", "-", "", ""⟩ GoType.tString [] [] (by decide),
   (struct_field_visibility.2 [(⟨"A", "", "", "", ""⟩, GoType.tString)]
      [("A", Schema.mk .str "" [] none [])] rfl "A").mpr (by decide)⟩

/-- C7: for a field whose derived schema kind is string and whose enum
annotation is present and non-empty, the attached enum equals the comma
split of that annotation in order; for a field whose derived kind is not
string, the schema carries no enum even when the annotation is present
(the kind is unchanged by the per-field post-processing). -/
theorem field_enum_attachment (tag : GoTag) (ty : GoType) (s : Schema)
    (h : typeToSchema ty = Except.ok s) :
    (fieldSchema tag s).ty = s.ty ∧
    (s.ty = SchemaTy.str → tag.enum ≠ "" →
      (fieldSchema tag s).enum = tag.enum.splitOn ",") ∧
    (s.ty ≠ SchemaTy.str → (fieldSchema tag s).enum = []) := by
  have henum : s.enum = [] := typeToSchema_enum_nil ty s h
  obtain ⟨t, d, e, items, props⟩ := s
  simp only [Schema.enum] at henum
  subst henum
  refine ⟨?_, ?_, ?_⟩
  · simp only [fieldSchema, Schema.withDescription, Schema.withEnum, Schema.ty]
    split_ifs <;> rfl
  · intro ht he
    simp only [Schema.ty] at ht
    subst ht
    simp [fieldSchema, Schema.withDescription, Schema.withEnum, Schema.ty, Schema.enum, he]
  · intro ht
    simp only [Schema.ty] at ht
    simp only [fieldSchema, Schema.withDescription, Schema.withEnum, Schema.ty]
    split_ifs with h1 h2
    · exact absurd h1 ht
    · exact absurd h1 ht
    · rfl

/-- C7 witness: `field_enum_attachment` applied to a string field and an
integer field both annotated `enum:"a,b"`: the string field's schema takes
the comma split, the integer field's schema keeps no enum. -/
theorem field_enum_attachment_witness :
    (fieldSchema ⟨"Category", "", "", "", "a,b"⟩ (Schema.mk .str "" [] none [])).enum =
      ("a,b").splitOn "," ∧
    (fieldSchema ⟨"Num", "", "", "", "a,b"⟩ (Schema.mk .integer "" [] none [])).enum = [] :=
  ⟨(field_enum_attachment ⟨"Category", "", "", "", "a,b"⟩ GoType.tString
      (Schema.mk .str "" [] none []) rfl).2.1 rfl (by decide),
   (field_enum_attachment ⟨"Num", "", "", "", "a,b"⟩ GoType.tInt
      (Schema.mk .integer "" [] none []) rfl).2.2 (by decide)⟩

/-! ## Kind-tree lemmas for the mirror theorem -/

theorem kindTree_desc_enum_indep (t : SchemaTy) (d1 d2 : String) (e1 e2 : List String)
    (items : Option Schema) (props : List (String × Schema)) :
    Schema.kindTree (.mk t d1 e1 items props) = Schema.kindTree (.mk t d2 e2 items props) := by
  cases t <;> cases items <;> simp [Schema.kindTree]

theorem fieldSchema_kindTree (tag : GoTag) (s : Schema) :
    Schema.kindTree (fieldSchema tag s) = Schema.kindTree s := by
  obtain ⟨t, d, e, items, props⟩ := s
  simp only [fieldSchema, Schema.withDescription, Schema.withEnum, Schema.ty]
  split_ifs <;> apply kindTree_desc_enum_indep

theorem kindTreeProps_assocSet (l : List (String × Schema)) (k : String) (v : Schema) :
    kindTreeProps (assocSet l k v) = assocSet (kindTreeProps l) k (Schema.kindTree v) := by
  induction l with
  | nil => simp [assocSet, kindTreeProps]
  | cons p rest ih =>
    obtain ⟨k1, s1⟩ := p
    simp only [assocSet, kindTreeProps]
    by_cases h : k1 = k
    · rw [if_pos h, if_pos h]
      simp [kindTreeProps]
    · rw [if_neg h, if_neg h]
      simp [kindTreeProps, ih]

mutual

theorem typeToSchema_mirrors (t : GoType) (h : isSimpleType t = true) :
    ∃ s, typeToSchema t = Except.ok s ∧ typeKindTree t = some (Schema.kindTree s) := by
  match t with
  | .tString => exact ⟨Schema.mk .str "" [] none [], rfl, rfl⟩
  | .tFloat32 => exact ⟨Schema.mk .number "" [] none [], rfl, rfl⟩
  | .tFloat64 => exact ⟨Schema.mk .number "" [] none [], rfl, rfl⟩
  | .tInt => exact ⟨Schema.mk .integer "" [] none [], rfl, rfl⟩
  | .tInt8 => exact ⟨Schema.mk .integer "" [] none [], rfl, rfl⟩
  | .tInt16 => exact ⟨Schema.mk .integer "" [] none [], rfl, rfl⟩
  | .tInt32 => exact ⟨Schema.mk .integer "" [] none [], rfl, rfl⟩
  | .tInt64 => exact ⟨Schema.mk .integer "" [] none [], rfl, rfl⟩
  | .tUint => exact ⟨Schema.mk .integer "" [] none [], rfl, rfl⟩
  | .tUint8 => exact ⟨Schema.mk .integer "" [] none [], rfl, rfl⟩
  | .tUint16 => exact ⟨Schema.mk .integer "" [] none [], rfl, rfl⟩
  | .tUint32 => exact ⟨Schema.mk .integer "" [] none [], rfl, rfl⟩
  | .tUint64 => exact ⟨Schema.mk .integer "" [] none [], rfl, rfl⟩
  | .tBool => exact ⟨Schema.mk .boolean "" [] none [], rfl, rfl⟩
  | .tPtr t1 =>
    have h1 : isSimpleType t1 = true := by simpa [isSimpleType] using h
    obtain ⟨s, hs, hk⟩ := typeToSchema_mirrors t1 h1
    exact ⟨s, by simpa [typeToSchema] using hs, by simpa [typeKindTree] using hk⟩
  | .tSlice t1 =>
    have h1 : isSimpleType t1 = true := by simpa [isSimpleType] using h
    obtain ⟨s, hs, hk⟩ := typeToSchema_mirrors t1 h1
    refine ⟨Schema.mk .array "" [] (some s) [], ?_, ?_⟩
    · simp [typeToSchema, hs]
    · simp [typeKindTree, hk, Schema.kindTree]
  | .tArray t1 =>
    have h1 : isSimpleType t1 = true := by simpa [isSimpleType] using h
    obtain ⟨s, hs, hk⟩ := typeToSchema_mirrors t1 h1
    refine ⟨Schema.mk .array "" [] (some s) [], ?_, ?_⟩
    · simp [typeToSchema, hs]
    · simp [typeKindTree, hk, Schema.kindTree]
  | .tStruct fields =>
    have h1 : isSimpleFields fields = true := by simpa [isSimpleType] using h
    obtain ⟨props, hs, hk⟩ := structProperties_mirrors fields [] h1
    refine ⟨Schema.mk .object "" [] none props, ?_, ?_⟩
    · simp only [typeToSchema]
      rw [hs]
    · simp only [typeKindTree]
      have hk0 : typeKindTreeFields fields [] = some (kindTreeProps props) := hk
      rw [hk0]
      simp [Schema.kindTree]
  | .tOther k => simp [isSimpleType] at h

theorem structProperties_mirrors (fs : List (GoTag × GoType)) (acc : List (String × Schema))
    (h : isSimpleFields fs = true) :
    ∃ props, structProperties fs acc = Except.ok props ∧
      typeKindTreeFields fs (kindTreeProps acc) = some (kindTreeProps props) := by
  match fs with
  | [] => exact ⟨acc, rfl, rfl⟩
  | (tag, ty) :: rest =>
    have hty : isSimpleType ty = true := by
      have := h
      simp [isSimpleFields] at this
      exact this.1
    have hrest : isSimpleFields rest = true := by
      have := h
      simp [isSimpleFields] at this
      exact this.2
    by_cases hvis : specVisible tag = true
    · have hp : tag.pkgPath = "" := by
        simp [specVisible] at hvis
        exact hvis.1
      have hj : tag.json ≠ "-" := by
        simp [specVisible] at hvis
        exact hvis.2
      obtain ⟨s, hs, hk⟩ := typeToSchema_mirrors ty hty
      obtain ⟨props, hps, hpk⟩ :=
        structProperties_mirrors rest (assocSet acc (fieldKey tag) (fieldSchema tag s)) hrest
      refine ⟨props, ?_, ?_⟩
      · rw [structProperties_visible_ok tag ty rest acc s hp hj hs]
        exact hps
      · have heq : assocSet (kindTreeProps acc) (specFieldKey tag) (Schema.kindTree s) =
            kindTreeProps (assocSet acc (fieldKey tag) (fieldSchema tag s)) := by
          rw [kindTreeProps_assocSet, fieldKey_eq_specFieldKey, fieldSchema_kindTree]
        simp only [typeKindTreeFields, hvis, if_true]
        rw [hk]
        show typeKindTreeFields rest
            (assocSet (kindTreeProps acc) (specFieldKey tag) (Schema.kindTree s)) =
          some (kindTreeProps props)
        rw [heq]
        exact hpk
    · have hvis2 : specVisible tag = false := by
        cases hb : specVisible tag
        · rfl
        · exact absurd hb hvis
      obtain ⟨props, hps, hpk⟩ := structProperties_mirrors rest acc hrest
      refine ⟨props, ?_, ?_⟩
      · rw [structProperties_skip tag ty rest acc hvis2]
        exact hps
      · simp only [typeKindTreeFields, hvis2, if_false]
        exact hpk

end

/-- C5: the Type Reflector mirrors the type tree exactly on the supported
fragment: pointers are transparently unwrapped (the schema of a pointer
type equals the schema of its pointee), text maps to string kind, floats to
number, integers to integer, booleans to boolean; and for every type built
only from those primitives, sequences, records and pointer wrapping, schema
derivation succeeds and the derived Schema Model's kind tree equals the
kind tree of the type, recursively field-for-field. -/
theorem reflector_mirrors_type_tree :
    (∀ t : GoType, typeToSchema (GoType.tPtr t) = typeToSchema t) ∧
    typeToSchema GoType.tString = Except.ok (Schema.mk .str "" [] none []) ∧
    typeToSchema GoType.tFloat32 = Except.ok (Schema.mk .number "" [] none []) ∧
    typeToSchema GoType.tFloat64 = Except.ok (Schema.mk .number "" [] none []) ∧
    typeToSchema GoType.tInt = Except.ok (Schema.mk .integer "" [] none []) ∧
    typeToSchema GoType.tUint64 = Except.ok (Schema.mk .integer "" [] none []) ∧
    typeToSchema GoType.tBool = Except.ok (Schema.mk .boolean "" [] none []) ∧
    (∀ t : GoType, isSimpleType t = true →
      ∃ s, typeToSchema t = Except.ok s ∧ typeKindTree t = some (Schema.kindTree s)) :=
  ⟨fun _ => rfl, rfl, rfl, rfl, rfl, rfl, rfl, typeToSchema_mirrors⟩

/-- C5 witness: `reflector_mirrors_type_tree` applied to a record holding a
sequence of pointer-wrapped integers and a nested record with a boolean
field. -/
theorem reflector_mirrors_type_tree_witness :
    ∃ s, typeToSchema (GoType.tStruct
        [(⟨"A", "", "", "", ""⟩, GoType.tSlice (GoType.tPtr GoType.tInt)),
         (⟨"B", "", "", "", ""⟩, GoType.tStruct [(⟨"C", "", "", "", ""⟩, GoType.tBool)])]) =
        Except.ok s ∧
      typeKindTree (GoType.tStruct
        [(⟨"A", "", "", "", ""⟩, GoType.tSlice (GoType.tPtr GoType.tInt)),
         (⟨"B", "", "", "", ""⟩, GoType.tStruct [(⟨"C", "", "", "", ""⟩, GoType.tBool)])]) =
        some (Schema.kindTree s) :=
  reflector_mirrors_type_tree.2.2.2.2.2.2.2 (GoType.tStruct
    [(⟨"A", "", "", "", ""⟩, GoType.tSlice (GoType.tPtr GoType.tInt)),
     (⟨"B", "", "", "", ""⟩, GoType.tStruct [(⟨"C", "", "", "", ""⟩, GoType.tBool)])]) rfl

end LlmStructed
